import Mathlib

/-!
Verification of the canvas-gauge needle-physics and rendering core.

The JavaScript sources are embedded shallowly over an arbitrary linear
ordered field `α` (with a floor, for the fixed-timestep accumulator), so
that every theorem holds both for exact rational evaluation (`α = ℚ`) and
for the real numbers (`α = ℝ`, with `Math.PI` instantiated by `Real.pi`).
JavaScript numbers are modelled as field elements; the `isFinite` guards of
the source become vacuous on field values and are noted where they occur.
`Math.PI` is passed explicitly as a parameter `piv`.
-/

set_option maxHeartbeats 1600000
set_option linter.unusedSectionVars false
set_option linter.unusedVariables false

namespace CanvasGauge

variable {α : Type} [LinearOrderedField α] [FloorRing α]

/-- `FIXED_TIMESTEP = 1 / 120` from presets.js: 120 Hz physics step. -/
def FIXED_TIMESTEP : α := 1 / 120

/-- `MAX_FRAME_TIME = 0.1` from presets.js: cap to prevent spiral of death. -/
def MAX_FRAME_TIME : α := 1 / 10

/-- `this.vibrationAmount = 0.002` from NeedlePhysics.js. -/
def vibrationAmount : α := 2 / 1000

/-- Tuning parameters and flags of `NeedlePhysics` (NeedlePhysics.js
constructor): spring-damper constants, clamps, and the two Booleans read by
`update`/`setTarget`. -/
structure PhysParams (α : Type) where
  stiffness : α
  damping : α
  maxVelocity : α
  maxAccel : α
  reducedMotion : Bool
  vibrationEnabled : Bool
deriving DecidableEq

/-- Mutable state of `NeedlePhysics`: current angle, angular velocity,
target angle, fixed-timestep accumulator and last-update timestamp
(`null` before the first `update` call). -/
@[ext]
structure PhysState (α : Type) where
  angle : α
  velocity : α
  targetAngle : α
  accumulator : α
  lastTime : Option α
deriving DecidableEq

/-- `NeedlePhysics.setTarget(angle, immediate)`: store the target; when
`immediate` (or the reduced-motion preference) holds, snap the angle to the
target and zero the velocity. -/
def setTarget (p : PhysParams α) (s : PhysState α) (a : α) (immediate : Bool) :
    PhysState α :=
  let s1 := { s with targetAngle := a }
  if immediate || p.reducedMotion then { s1 with angle := a, velocity := 0 } else s1

/-- `NeedlePhysics.step(dt)`: spring-damper acceleration, clamped to
`±maxAccel`; semi-implicit Euler (velocity first, clamped to
`±maxVelocity`, then the angle using the updated velocity). -/
def step (p : PhysParams α) (dt : α) (s : PhysState α) : PhysState α :=
  let displacement := s.targetAngle - s.angle
  let acceleration :=
    max (-p.maxAccel) (min p.maxAccel (p.stiffness * displacement - p.damping * s.velocity))
  let v := max (-p.maxVelocity) (min p.maxVelocity (s.velocity + acceleration * dt))
  { s with velocity := v, angle := s.angle + v * dt }

/-- One pass of the body of the `while (accumulator >= FIXED_TIMESTEP)` loop
in `NeedlePhysics.update`: `step(FIXED_TIMESTEP)` then
`accumulator -= FIXED_TIMESTEP`. -/
def loopBody (p : PhysParams α) (s : PhysState α) : PhysState α :=
  { step p FIXED_TIMESTEP s with accumulator := s.accumulator - FIXED_TIMESTEP }

/-- The accumulator drain loop of `NeedlePhysics.update`, with an explicit
fuel bound; the guard `FIXED_TIMESTEP ≤ accumulator` is the loop condition
of the source, so any sufficiently large fuel yields the loop's semantics.
`update` below supplies the exact number of iterations the loop performs. -/
def physLoop (p : PhysParams α) : ℕ → PhysState α → PhysState α
  | 0, s => s
  | n + 1, s =>
    if FIXED_TIMESTEP ≤ s.accumulator then physLoop p n (loopBody p s) else s

/-- `NeedlePhysics.update(currentTime)`, returning the new state and the
returned output angle. On the first call it records the timestamp and
returns the angle unchanged. Otherwise it computes elapsed seconds, clamps
negatives (and, in the source, non-finite values) to `0`, caps at
`MAX_FRAME_TIME`, optionally snaps for reduced motion, then drains the
fixed-timestep accumulator. The `Math.random()` sample used by the optional
vibration output is passed in as `rand`; `piv` stands for `Math.PI`. -/
def update (piv rand : α) (p : PhysParams α) (s : PhysState α) (currentTime : α) :
    PhysState α × α :=
  match s.lastTime with
  | none => ({ s with lastTime := some currentTime }, s.angle)
  | some lastT =>
    let ft0 := (currentTime - lastT) / 1000
    let ft1 := if ft0 < 0 then 0 else ft0
    let frameTime := if MAX_FRAME_TIME < ft1 then MAX_FRAME_TIME else ft1
    let s1 := { s with lastTime := some currentTime }
    if p.reducedMotion then
      ({ s1 with angle := s1.targetAngle, velocity := 0 }, s1.targetAngle)
    else
      let a := s1.accumulator + frameTime
      let s2 := physLoop p (⌊a / FIXED_TIMESTEP⌋.toNat) { s1 with accumulator := a }
      let out :=
        if p.vibrationEnabled && decide ((1 : α) / 10 < |s2.targetAngle|) then
          s2.angle + (rand - 1 / 2) * vibrationAmount * (s2.targetAngle / piv)
        else s2.angle
      (s2, out)

/-- `NeedlePhysics.isSettled(threshold)`: both the angle error and the
velocity magnitude are below the threshold. (The source's non-finite guard
returns `true` for NaN; field values are always finite here.) -/
def isSettled (s : PhysState α) (threshold : α) : Bool :=
  decide (|s.angle - s.targetAngle| < threshold) && decide (|s.velocity| < threshold)

/-- A warning zone of the configuration (`start`, `end`, `color`, optional
radial `offset`/`width`); `end` is a Lean keyword, hence `zend`. -/
structure Zone (α : Type) where
  start : α
  zend : α
  color : String
  offset : Option α
  width : Option α
deriving DecidableEq

/-- The slice of the resolved gauge configuration that the verified layers
read: numeric range, angular sweep in degrees, major tick count, zone list
and the legacy scalar thresholds (absent fields modelled as `none`). -/
structure GaugeConfig (α : Type) where
  min : α
  max : α
  startAngle : α
  endAngle : α
  majorTicks : ℕ
  zones : List (Zone α)
  redlineStart : Option α
  dangerStart : Option α
deriving DecidableEq

/-- The 8 resolved palette entries (color strings). -/
structure Palette where
  face : String
  needle : String
  ticks : String
  minorTicks : String
  numbers : String
  label : String
  units : String
  redline : String
deriving DecidableEq

/-- Degrees-to-radians conversion as written in the source:
`(deg) * Math.PI / 180`, with `Math.PI` passed as `piv`. -/
def toRadians (piv deg : α) : α := deg * piv / 180

/-- Clamp to the unit interval, as `Math.max(0, Math.min(1, x))`. -/
def clamp01 (x : α) : α := max 0 (min 1 x)

/-- `Gauge._valueToAngle(value)` from Gauge.js. A non-finite input value is
replaced by `config.min` (modelled by an `Option` argument, `none` standing
for the non-finite case); a zero range returns angle `0` before any
division. The source's final `isFinite(result)` guard is vacuous over a
field. -/
def valueToAngle (piv : α) (cfg : GaugeConfig α) (value : Option α) : α :=
  let v := value.getD cfg.min
  let range := cfg.max - cfg.min
  if range = 0 then 0
  else
    let normalized := (v - cfg.min) / range
    let clamped := max 0 (min 1 normalized)
    let startAngle := (cfg.startAngle - 90) * piv / 180
    let endAngle := (cfg.endAngle - 90) * piv / 180
    startAngle + clamped * (endAngle - startAngle)

/-- JavaScript truthiness of an optional numeric field: absent (`undefined`)
and `0` are falsy. -/
def truthy : Option α → Bool
  | none => false
  | some x => decide (x ≠ 0)

/-- The fill color of the synthesized backward-compatibility zone in
`drawZones`. -/
def zoneRed : String := "rgba(204, 32, 32, 0.15)"

/-- The zone list actually drawn by `GaugeRenderer.drawZones` (part_003
lines 284-292): if the configured list is empty and `redlineStart` or
`dangerStart` is truthy, one zone from that threshold to `max` is
synthesized; otherwise the configured list is used unchanged. -/
def resolveZones (cfg : GaugeConfig α) : List (Zone α) :=
  if cfg.zones.isEmpty && (truthy cfg.redlineStart || truthy cfg.dangerStart) then
    let start := if truthy cfg.redlineStart then cfg.redlineStart.getD 0
      else cfg.dangerStart.getD 0
    [{ start := start, zend := cfg.max, color := zoneRed, offset := none, width := none }]
  else cfg.zones

/-- The value mapped to major tick `i` in `drawTicks`/`drawNumbers`:
`min + (i / (majorTicks - 1)) * (max - min)`. -/
def tickValue (cfg : GaugeConfig α) (i : ℕ) : α :=
  cfg.min + ((i : α) / ((cfg.majorTicks : α) - 1)) * (cfg.max - cfg.min)

/-- The danger test of `drawTicks`/`drawNumbers`:
`(config.redlineStart && value >= config.redlineStart) ||
 (config.dangerStart && value >= config.dangerStart)` with JavaScript
truthiness on the two legacy fields. -/
def isDanger (cfg : GaugeConfig α) (value : α) : Bool :=
  (truthy cfg.redlineStart && decide (cfg.redlineStart.getD 0 ≤ value)) ||
    (truthy cfg.dangerStart && decide (cfg.dangerStart.getD 0 ≤ value))

/-- Stroke color of major tick `i` in `drawTicks`:
`isDanger ? colors.redline : colors.ticks`. -/
def tickStrokeStyle (cfg : GaugeConfig α) (pal : Palette) (i : ℕ) : String :=
  if isDanger cfg (tickValue cfg i) then pal.redline else pal.ticks

/-- Fill color of the label at major tick `i` in `drawNumbers`:
`isDanger ? colors.redline : colors.numbers`. -/
def numberFillStyle (cfg : GaugeConfig α) (pal : Palette) (i : ℕ) : String :=
  if isDanger cfg (tickValue cfg i) then pal.redline else pal.numbers

/-- An RGB channel triple, the result of `_parseHex` on a color string. -/
structure RGB where
  r : ℤ
  g : ℤ
  b : ℤ
deriving DecidableEq

/-- A gradient stop `{at, color}`; `at` is a Lean keyword, hence `atv`, and
the color is modelled by its parsed RGB triple. -/
structure GradStop (α : Type) where
  atv : α
  color : RGB
deriving DecidableEq

/-- `Math.round`: round half toward positive infinity. -/
def jsRound (x : α) : ℤ := ⌊x + 1 / 2⌋

/-- The bracketing scan of `_interpolateGradient`: walk adjacent stop pairs
and return the first pair `(stops[i], stops[i+1])` with
`stops[i].at ≤ t ≤ stops[i+1].at`, if any. -/
def findBracket : List (GradStop α) → α → Option (GradStop α × GradStop α)
  | s1 :: s2 :: rest, t =>
    if s1.atv ≤ t ∧ t ≤ s2.atv then some (s1, s2)
    else findBracket (s2 :: rest) t
  | _, _ => none

/-- Channel-wise rounded linear interpolation between two stops at local
parameter `localT`, as in `_interpolateGradient`. -/
def lerpRGB (c1 c2 : RGB) (localT : α) : RGB :=
  { r := jsRound ((c1.r : α) + ((c2.r : α) - (c1.r : α)) * localT)
    g := jsRound ((c1.g : α) + ((c2.g : α) - (c1.g : α)) * localT)
    b := jsRound ((c1.b : α) + ((c2.b : α) - (c1.b : α)) * localT) }

/-- `GaugeRenderer._interpolateGradient(stops, t)` (part_003 lines
862-886). The empty-stop fallback color (an rgba string) is modelled as
`none`; a single stop returns its own color; otherwise `t` is clamped to
`[0,1]`, the first bracketing adjacent pair is selected (defaulting to the
first and last stop when no pair brackets `t`), and the channels are
linearly interpolated at `(t - lower.at) / (upper.at - lower.at)` (or `0`
when that range is not positive). -/
def interpolateGradient (stops : List (GradStop α)) (t0 : α) : Option RGB :=
  match stops with
  | [] => none
  | [s] => some s.color
  | s0 :: s1 :: rest =>
    let l := s0 :: s1 :: rest
    let t := max 0 (min 1 t0)
    let pair := (findBracket l t).getD (s0, l.getLast (List.cons_ne_nil s0 (s1 :: rest)))
    let lower := pair.1
    let upper := pair.2
    let range := upper.atv - lower.atv
    let localT := if 0 < range then (t - lower.atv) / range else 0
    some (lerpRGB lower.color upper.color localT)

/-- The sweep phase of `Gauge`: `'idle' | 'up' | 'down'`. -/
inductive SweepPhase
  | idle
  | up
  | down
deriving DecidableEq

/-- The slice of `Gauge` state driving the sweep machine: the remembered
target value, the sweep flags/timestamps and the embedded physics state. -/
structure GaugeState (α : Type) where
  targetValue : α
  isSweeping : Bool
  sweepPhase : SweepPhase
  sweepStartTime : α
  phys : PhysState α
deriving DecidableEq

/-- `sweepDuration = 800` ms per direction in `Gauge._updateSweep`. -/
def sweepDuration : α := 800

/-- `Gauge._updateSweep(timestamp)`: in the up phase, once 800 ms elapsed,
move to the down phase and retarget the physics to `min`; in the down
phase, once the physics settles within `0.01`, return to idle, retarget to
the remembered value and emit the completion signal (the returned `Bool`). -/
def updateSweep (piv : α) (cfg : GaugeConfig α) (p : PhysParams α)
    (g : GaugeState α) (timestamp : α) : GaugeState α × Bool :=
  let elapsed := timestamp - g.sweepStartTime
  match g.sweepPhase with
  | SweepPhase.up =>
    if sweepDuration ≤ elapsed then
      ({ g with
          sweepPhase := SweepPhase.down, sweepStartTime := timestamp,
          phys := setTarget p g.phys (valueToAngle piv cfg (some cfg.min)) false }, false)
    else (g, false)
  | SweepPhase.down =>
    if isSettled g.phys (1 / 100) then
      ({ g with
          isSweeping := false, sweepPhase := SweepPhase.idle,
          phys := setTarget p g.phys (valueToAngle piv cfg (some g.targetValue)) false }, true)
    else (g, false)
  | SweepPhase.idle => (g, false)

/-- `Gauge.setValue(value, {immediate})`: always remember the value; only
when not sweeping, retarget the physics to its mapped angle. -/
def setValue (piv : α) (cfg : GaugeConfig α) (p : PhysParams α)
    (g : GaugeState α) (value : α) (immediate : Bool) : GaugeState α :=
  let g1 := { g with targetValue := value }
  if !g1.isSweeping then
    { g1 with phys := setTarget p g1.phys (valueToAngle piv cfg (some value)) immediate }
  else g1

/-- `Gauge.sweep()`: enter the up phase at time `now` and force the physics
target to the mapped `max`. -/
def sweepStart (piv : α) (cfg : GaugeConfig α) (p : PhysParams α)
    (g : GaugeState α) (now : α) : GaugeState α :=
  { g with
      isSweeping := true, sweepPhase := SweepPhase.up, sweepStartTime := now,
      phys := setTarget p g.phys (valueToAngle piv cfg (some cfg.max)) false }

/-- The sweep/physics slice of one `Gauge._render(timestamp)` frame:
`_updateSweep` runs only while sweeping, then the physics updates. The
returned `Bool` is the sweep-completion signal emitted during this frame. -/
def renderFrame (piv : α) (cfg : GaugeConfig α) (p : PhysParams α) (rand : α)
    (g : GaugeState α) (timestamp : α) : GaugeState α × Bool :=
  let ge := if g.isSweeping then updateSweep piv cfg p g timestamp else (g, false)
  let ps := update piv rand p ge.1.phys timestamp
  ({ ge.1 with phys := ps.1 }, ge.2)

/-- External stimuli of the physics simulator, for stating trace
invariants. -/
inductive PhysEvent (α : Type)
  | set (a : α) (immediate : Bool)
  | upd (t : α)

/-- Run a sequence of `setTarget`/`update` calls against the simulator. -/
def runPhys (piv rand : α) (p : PhysParams α) :
    PhysState α → List (PhysEvent α) → PhysState α
  | s, [] => s
  | s, PhysEvent.set a imm :: es => runPhys piv rand p (setTarget p s a imm) es
  | s, PhysEvent.upd t :: es => runPhys piv rand p (update piv rand p s t).1 es

/-- External stimuli of a gauge: rendered frames and `setValue` calls. -/
inductive GaugeEvent (α : Type)
  | frame (t : α) (rand : α)
  | setV (v : α) (immediate : Bool)

/-- Run a sequence of frames and `setValue` calls against a gauge,
counting how many sweep-completion signals are emitted. -/
def runGauge (piv : α) (cfg : GaugeConfig α) (p : PhysParams α) :
    GaugeState α → List (GaugeEvent α) → GaugeState α × ℕ
  | g, [] => (g, 0)
  | g, GaugeEvent.frame t rand :: es =>
    let fr := renderFrame piv cfg p rand g t
    let rest := runGauge piv cfg p fr.1 es
    (rest.1, (if fr.2 then 1 else 0) + rest.2)
  | g, GaugeEvent.setV v imm :: es =>
    runGauge piv cfg p (setValue piv cfg p g v imm) es

/-- Specification-side statement of one fixed integration step, as the
spec words it: acceleration `stiffness * (target - angle) - damping *
velocity` clamped to `±maxAccel`; the velocity is updated first and
clamped to `±maxVelocity`; the angle then advances using the updated
velocity, all over a timestep of exactly `1/120` s. The state is the
`(angle, velocity)` pair. -/
def specStep (p : PhysParams α) (target : α) (st : α × α) : α × α :=
  let acceleration :=
    max (-p.maxAccel) (min p.maxAccel (p.stiffness * (target - st.1) - p.damping * st.2))
  let v := max (-p.maxVelocity) (min p.maxVelocity (st.2 + acceleration * FIXED_TIMESTEP))
  (st.1 + v * FIXED_TIMESTEP, v)

/-- The effective frame time of one `update` call: elapsed seconds clamped
below by `0` and capped at `MAX_FRAME_TIME`. -/
def uFT (t lastT : α) : α := min MAX_FRAME_TIME (max 0 ((t - lastT) / 1000))

section Helpers

lemma FT_pos : (0 : α) < FIXED_TIMESTEP := by norm_num [FIXED_TIMESTEP]

lemma MFT_nonneg : (0 : α) ≤ MAX_FRAME_TIME := by norm_num [MAX_FRAME_TIME]

lemma ite_neg_zero (x : α) : (if x < 0 then (0 : α) else x) = max 0 x := by
  rcases lt_or_le x 0 with h | h
  · simp [h, max_eq_left h.le]
  · simp [not_lt.mpr h, max_eq_right h]

lemma ite_cap (x : α) :
    (if MAX_FRAME_TIME < x then (MAX_FRAME_TIME : α) else x) = min MAX_FRAME_TIME x := by
  rcases lt_or_le MAX_FRAME_TIME x with h | h
  · simp [h, min_eq_left h.le]
  · simp [not_lt.mpr h, min_eq_right h]

lemma uFT_nonneg (t lastT : α) : 0 ≤ uFT t lastT :=
  le_min MFT_nonneg (le_max_left 0 _)

lemma uFT_le (t lastT : α) : uFT t lastT ≤ MAX_FRAME_TIME := min_le_left _ _

lemma uFT_of_bounds (t lastT : α) (h0 : 0 ≤ (t - lastT) / 1000)
    (h1 : (t - lastT) / 1000 ≤ MAX_FRAME_TIME) : uFT t lastT = (t - lastT) / 1000 := by
  rw [uFT, max_eq_right h0, min_eq_right h1]

lemma loopBody_fields (p : PhysParams α) (s : PhysState α) :
    loopBody p s =
      { angle := (specStep p s.targetAngle (s.angle, s.velocity)).1,
        velocity := (specStep p s.targetAngle (s.angle, s.velocity)).2,
        targetAngle := s.targetAngle,
        accumulator := s.accumulator - FIXED_TIMESTEP,
        lastTime := s.lastTime } := rfl

lemma loopBody_iterate (p : PhysParams α) (s : PhysState α) (n : ℕ) :
    (loopBody p)^[n] s =
      { angle := ((specStep p s.targetAngle)^[n] (s.angle, s.velocity)).1,
        velocity := ((specStep p s.targetAngle)^[n] (s.angle, s.velocity)).2,
        targetAngle := s.targetAngle,
        accumulator := s.accumulator - n * FIXED_TIMESTEP,
        lastTime := s.lastTime } := by
  induction n generalizing s with
  | zero => simp
  | succ n ih =>
    rw [Function.iterate_succ_apply, ih, loopBody_fields]
    simp only [Function.iterate_succ_apply]
    push_cast
    congr 1
    ring

lemma physLoop_eq_iterate (p : PhysParams α) (n : ℕ) (s : PhysState α)
    (hn : n = (⌊s.accumulator / (FIXED_TIMESTEP : α)⌋).toNat) :
    physLoop p n s = (loopBody p)^[n] s := by
  induction n generalizing s with
  | zero => rfl
  | succ n ih =>
    have hfl : ⌊s.accumulator / (FIXED_TIMESTEP : α)⌋ = (n : ℤ) + 1 := by omega
    have h1 : (1 : ℤ) ≤ ⌊s.accumulator / (FIXED_TIMESTEP : α)⌋ := by omega
    have h2 : (1 : α) ≤ s.accumulator / FIXED_TIMESTEP := by exact_mod_cast Int.le_floor.mp h1
    have h3 : (FIXED_TIMESTEP : α) ≤ s.accumulator := (one_le_div FT_pos).mp h2
    have hsub : (loopBody p s).accumulator / (FIXED_TIMESTEP : α) =
        s.accumulator / FIXED_TIMESTEP - 1 := by
      rw [loopBody_fields]
      rw [sub_div, div_self (ne_of_gt (FT_pos (α := α)))]
    have hrec : n = (⌊(loopBody p s).accumulator / (FIXED_TIMESTEP : α)⌋).toNat := by
      rw [hsub]
      have : ⌊s.accumulator / (FIXED_TIMESTEP : α) - 1⌋ =
          ⌊s.accumulator / (FIXED_TIMESTEP : α)⌋ - 1 := Int.floor_sub_one _
      omega
    rw [physLoop, if_pos h3, ih _ hrec, Function.iterate_succ_apply]

lemma accum_remainder (a : α) (ha : 0 ≤ a) :
    0 ≤ a - ((⌊a / (FIXED_TIMESTEP : α)⌋).toNat : α) * FIXED_TIMESTEP ∧
      a - ((⌊a / (FIXED_TIMESTEP : α)⌋).toNat : α) * FIXED_TIMESTEP < FIXED_TIMESTEP := by
  have hdt : (0 : α) < FIXED_TIMESTEP := FT_pos
  have hfl : (0 : ℤ) ≤ ⌊a / (FIXED_TIMESTEP : α)⌋ :=
    Int.floor_nonneg.mpr (div_nonneg ha hdt.le)
  have hcast : ((⌊a / (FIXED_TIMESTEP : α)⌋).toNat : α) =
      ((⌊a / (FIXED_TIMESTEP : α)⌋ : ℤ) : α) := by
    exact_mod_cast Int.toNat_of_nonneg hfl
  rw [hcast]
  exact ⟨Int.sub_floor_div_mul_nonneg a hdt, Int.sub_floor_div_mul_lt a hdt⟩

/-- Closed form of a non-first, non-reduced-motion `update` call: the loop
performs exactly `⌊(accumulator + frameTime) / FIXED_TIMESTEP⌋` steps. -/
lemma update_closed (piv rand : α) (p : PhysParams α) (s : PhysState α) (t lastT : α)
    (hlast : s.lastTime = some lastT) (hrm : p.reducedMotion = false) :
    (update piv rand p s t).1 =
      { angle := ((specStep p s.targetAngle)^[(⌊(s.accumulator + uFT t lastT) /
            (FIXED_TIMESTEP : α)⌋).toNat] (s.angle, s.velocity)).1,
        velocity := ((specStep p s.targetAngle)^[(⌊(s.accumulator + uFT t lastT) /
            (FIXED_TIMESTEP : α)⌋).toNat] (s.angle, s.velocity)).2,
        targetAngle := s.targetAngle,
        accumulator := s.accumulator + uFT t lastT -
          ((⌊(s.accumulator + uFT t lastT) / (FIXED_TIMESTEP : α)⌋).toNat : α) *
            FIXED_TIMESTEP,
        lastTime := some t } := by
  have hft : (if MAX_FRAME_TIME < (if (t - lastT) / 1000 < 0 then (0 : α)
      else (t - lastT) / 1000) then (MAX_FRAME_TIME : α)
      else if (t - lastT) / 1000 < 0 then (0 : α) else (t - lastT) / 1000) = uFT t lastT := by
    rw [ite_neg_zero, ite_cap, uFT]
  simp only [update, hlast, hrm, Bool.false_eq_true, if_false]
  rw [hft]
  rw [physLoop_eq_iterate p
      ((⌊(s.accumulator + uFT t lastT) / (FIXED_TIMESTEP : α)⌋).toNat)
      { s with accumulator := s.accumulator + uFT t lastT, lastTime := some t } rfl]
  rw [loopBody_iterate]

end Helpers

/-- C1 (amended): for every configuration with `max ≠ min`, the
value-to-angle mapping satisfies
`angle(value) = toRadians(startAngle - 90) + clamp01((value - min) / (max - min)) *
(toRadians(endAngle - 90) - toRadians(startAngle - 90))`, and in particular
`angle(min) = toRadians(startAngle - 90)` and
`angle(max) = toRadians(endAngle - 90)`, exactly. (For degenerate
configurations with `max = min` the mapping instead returns `0`, refuting
the original "any configuration" clause; see the counterexample.) -/
theorem valueToAngle_formula (piv : α) (cfg : GaugeConfig α) (v : α)
    (hne : cfg.max ≠ cfg.min) :
    valueToAngle piv cfg (some v) =
      toRadians piv (cfg.startAngle - 90) +
        clamp01 ((v - cfg.min) / (cfg.max - cfg.min)) *
          (toRadians piv (cfg.endAngle - 90) - toRadians piv (cfg.startAngle - 90)) ∧
    valueToAngle piv cfg (some cfg.min) = toRadians piv (cfg.startAngle - 90) ∧
    valueToAngle piv cfg (some cfg.max) = toRadians piv (cfg.endAngle - 90) := by
  have hr : cfg.max - cfg.min ≠ 0 := sub_ne_zero.mpr hne
  refine ⟨?_, ?_, ?_⟩
  · simp only [valueToAngle, toRadians, clamp01, Option.getD_some]
    rw [if_neg hr]
  · simp only [valueToAngle, toRadians, Option.getD_some]
    rw [if_neg hr, sub_self, zero_div]
    norm_num
  · simp only [valueToAngle, toRadians, Option.getD_some]
    rw [if_neg hr, div_self hr]
    have h1 : max (0 : α) (min 1 1) = 1 := by norm_num
    rw [h1]
    ring

/-- Witness for C1 at the `speed` preset (`min = 0`, `max = 140`,
`startAngle = -225`, `endAngle = 45`) with a rational stand-in for π and
query value 70. -/
theorem valueToAngle_formula_witness :
    ((140 : ℚ) ≠ 0) ∧
    (valueToAngle (22 / 7 : ℚ) ⟨0, 140, -225, 45, 8, [], none, none⟩ (some 70) =
        toRadians (22 / 7) ((-225 : ℚ) - 90) +
          clamp01 ((70 - 0) / (140 - 0)) *
            (toRadians (22 / 7) ((45 : ℚ) - 90) - toRadians (22 / 7) ((-225 : ℚ) - 90)) ∧
      valueToAngle (22 / 7 : ℚ) ⟨0, 140, -225, 45, 8, [], none, none⟩ (some 0) =
        toRadians (22 / 7) ((-225 : ℚ) - 90) ∧
      valueToAngle (22 / 7 : ℚ) ⟨0, 140, -225, 45, 8, [], none, none⟩ (some 140) =
        toRadians (22 / 7) ((45 : ℚ) - 90)) :=
  ⟨by norm_num,
    valueToAngle_formula (22 / 7) ⟨0, 140, -225, 45, 8, [], none, none⟩ 70 (by norm_num)⟩

/-- Counterexample for C1 as stated: for the degenerate configuration
`min = max = 0`, `startAngle = 0`, the code returns angle `0`, not
`toRadians(startAngle - 90) = -π/2`, so the "for any configuration
(including degenerate ones)" clause fails. -/
theorem valueToAngle_degenerate_cex :
    valueToAngle Real.pi ⟨(0 : ℝ), 0, 0, 45, 5, [], none, none⟩ (some 0) ≠
      toRadians Real.pi ((0 : ℝ) - 90) := by
  have hL : valueToAngle Real.pi ⟨(0 : ℝ), 0, 0, 45, 5, [], none, none⟩ (some 0) = 0 := by
    simp [valueToAngle]
  have hR : toRadians Real.pi ((0 : ℝ) - 90) = -(Real.pi / 2) := by
    rw [toRadians]; ring
  rw [hL, hR]
  intro h
  have := Real.pi_ne_zero
  have : Real.pi / 2 = 0 := by linarith [h]
  exact Real.pi_ne_zero (by linarith [this])

/-- C8 (amended): every configuration whose numeric range is zero
(`max = min`) maps every input value (finite or not, the non-finite case
being the `none` input) to angle `0`, with no division performed. Inverted
ranges (`max < min`), by contrast, take the ordinary formula path; see the
counterexample. -/
theorem degenerate_range_zero (piv : α) (cfg : GaugeConfig α) (h : cfg.max = cfg.min)
    (v : Option α) : valueToAngle piv cfg v = 0 := by
  simp [valueToAngle, h]

/-- Witness for C8 at a concrete degenerate configuration, for both a
finite and a non-finite input value. -/
theorem degenerate_range_zero_witness :
    ((5 : ℚ) = 5) ∧
    valueToAngle (3 : ℚ) ⟨5, 5, -225, 45, 5, [], none, none⟩ (some 99) = 0 ∧
    valueToAngle (3 : ℚ) ⟨5, 5, -225, 45, 5, [], none, none⟩ none = 0 :=
  ⟨rfl, degenerate_range_zero 3 ⟨5, 5, -225, 45, 5, [], none, none⟩ rfl (some 99),
    degenerate_range_zero 3 ⟨5, 5, -225, 45, 5, [], none, none⟩ rfl none⟩

/-- Counterexample for C8 as stated: an inverted range (`min = 10`,
`max = 0`) does not resolve to angle `0`; value `5` maps to `-π` via the
ordinary formula path. -/
theorem inverted_range_cex :
    valueToAngle Real.pi ⟨(10 : ℝ), 0, -225, 45, 5, [], none, none⟩ (some 5) ≠ 0 := by
  have hL : valueToAngle Real.pi ⟨(10 : ℝ), 0, -225, 45, 5, [], none, none⟩ (some 5) =
      -Real.pi := by
    simp only [valueToAngle, Option.getD_some]
    rw [if_neg (by norm_num)]
    have h1 : ((5 : ℝ) - 10) / ((0 : ℝ) - 10) = 1 / 2 := by norm_num
    rw [h1]
    have h2 : max (0 : ℝ) (min 1 (1 / 2)) = 1 / 2 := by
      rw [min_eq_right (by norm_num : (1 : ℝ) / 2 ≤ 1), max_eq_right (by norm_num)]
    rw [h2]
    ring
  rw [hL]
  simpa using Real.pi_ne_zero

/-- C2: a non-first `update` call (with the integration path active)
accumulates the elapsed time — clamped below by `0` and capped at
`MAX_FRAME_TIME = 0.1` s — into the carry buffer and performs exactly
`⌊buffer / (1/120)⌋` fixed integration steps of `1/120` s each
(`specStep`: clamped spring-damper acceleration, velocity updated and
clamped first, then the angle via the updated velocity), leaving a
remainder strictly less than one step in the buffer. -/
theorem update_fixed_timestep (piv rand : α) (p : PhysParams α) (s : PhysState α)
    (t lastT ft a : α) (n : ℕ)
    (hlast : s.lastTime = some lastT)
    (hrm : p.reducedMotion = false)
    (hacc : 0 ≤ s.accumulator)
    (hft : ft = min MAX_FRAME_TIME (max 0 ((t - lastT) / 1000)))
    (ha : a = s.accumulator + ft)
    (hn : n = (⌊a / (FIXED_TIMESTEP : α)⌋).toNat) :
    (update piv rand p s t).1 =
      { angle := ((specStep p s.targetAngle)^[n] (s.angle, s.velocity)).1,
        velocity := ((specStep p s.targetAngle)^[n] (s.angle, s.velocity)).2,
        targetAngle := s.targetAngle,
        accumulator := a - n * FIXED_TIMESTEP,
        lastTime := some t } ∧
    0 ≤ ft ∧ ft ≤ MAX_FRAME_TIME ∧
    0 ≤ a - n * FIXED_TIMESTEP ∧ a - n * FIXED_TIMESTEP < FIXED_TIMESTEP := by
  have hft' : ft = uFT t lastT := hft
  have ha0 : 0 ≤ a := by
    rw [ha, hft']
    exact add_nonneg hacc (uFT_nonneg t lastT)
  have hrem := accum_remainder a ha0
  subst hft' ha hn
  refine ⟨?_, uFT_nonneg t lastT, uFT_le t lastT, hrem.1, hrem.2⟩
  exact update_closed piv rand p s t lastT hlast hrm

/-- Witness for C2: a concrete call with 25 ms elapsed performs exactly 3
steps of `1/120` s and leaves `1/40 - 3/120 = 0` in the buffer. -/
theorem update_fixed_timestep_witness :
    (update (0 : ℚ) 0 ⟨120, 18, 20, 100, false, false⟩ ⟨0, 0, 1, 0, some 0⟩ 25).1 =
      { angle := ((specStep (⟨120, 18, 20, 100, false, false⟩ : PhysParams ℚ) 1)^[3]
          ((0 : ℚ), 0)).1,
        velocity := ((specStep (⟨120, 18, 20, 100, false, false⟩ : PhysParams ℚ) 1)^[3]
          ((0 : ℚ), 0)).2,
        targetAngle := 1,
        accumulator := 1 / 40 - 3 * FIXED_TIMESTEP,
        lastTime := some 25 } ∧
    (0 : ℚ) ≤ 1 / 40 ∧ (1 / 40 : ℚ) ≤ MAX_FRAME_TIME ∧
    (0 : ℚ) ≤ 1 / 40 - 3 * FIXED_TIMESTEP ∧
    (1 / 40 : ℚ) - 3 * FIXED_TIMESTEP < FIXED_TIMESTEP :=
  update_fixed_timestep 0 0 ⟨120, 18, 20, 100, false, false⟩ ⟨0, 0, 1, 0, some 0⟩
    25 0 (1 / 40) (1 / 40) 3 rfl rfl le_rfl
    (by norm_num [MAX_FRAME_TIME, max_def, min_def])
    (by norm_num)
    (by with_unfolding_all decide)

/-- C3 (amended): splitting an advance into two consecutive `update` calls
produces exactly the same state as a single call, provided the total
elapsed time stays within the `MAX_FRAME_TIME = 0.1` s cap. (With the cap,
a single 1-second call advances the physics by only 0.1 s and differs from
60 small calls; see the counterexample.) -/
theorem update_merge_calls (piv rand : α) (p : PhysParams α) (s : PhysState α)
    (t0 t1 t2 : α)
    (hlast : s.lastTime = some t0) (hrm : p.reducedMotion = false)
    (h01 : t0 ≤ t1) (h12 : t1 ≤ t2)
    (hcap : (t2 - t0) / 1000 ≤ MAX_FRAME_TIME)
    (hacc : 0 ≤ s.accumulator) :
    (update piv rand p (update piv rand p s t1).1 t2).1 = (update piv rand p s t2).1 := by
  have hk : (0 : α) < 1000 := by norm_num
  have hft1 : (0 : α) ≤ (t1 - t0) / 1000 := div_nonneg (by linarith) hk.le
  have hft2 : (0 : α) ≤ (t2 - t1) / 1000 := div_nonneg (by linarith) hk.le
  have hsum : (t1 - t0) / 1000 + (t2 - t1) / 1000 = (t2 - t0) / 1000 := by ring
  have hcap1 : (t1 - t0) / 1000 ≤ MAX_FRAME_TIME := by linarith
  have hcap2 : (t2 - t1) / 1000 ≤ MAX_FRAME_TIME := by linarith
  have hcapT : (0 : α) ≤ (t2 - t0) / 1000 := by linarith
  have hu1 : uFT t1 t0 = (t1 - t0) / 1000 := uFT_of_bounds _ _ hft1 hcap1
  have hu2 : uFT t2 t1 = (t2 - t1) / 1000 := uFT_of_bounds _ _ hft2 hcap2
  have huT : uFT t2 t0 = (t2 - t0) / 1000 := uFT_of_bounds _ _ hcapT hcap
  have h1 := update_closed piv rand p s t1 t0 hlast hrm
  rw [hu1] at h1
  have hlast1 : ((update piv rand p s t1).1).lastTime = some t1 := by rw [h1]
  have h2 := update_closed piv rand p (update piv rand p s t1).1 t2 t1 hlast1 hrm
  rw [hu2, h1] at h2
  dsimp only at h2
  have hT := update_closed piv rand p s t2 t0 hlast hrm
  rw [huT] at hT
  -- arithmetic facts about the two stage step counts
  have ha1nn : (0 : α) ≤ s.accumulator + (t1 - t0) / 1000 := by linarith
  have hn1nn : (0 : ℤ) ≤ ⌊(s.accumulator + (t1 - t0) / 1000) / (FIXED_TIMESTEP : α)⌋ :=
    Int.floor_nonneg.mpr (div_nonneg ha1nn FT_pos.le)
  have hn1c : ((⌊(s.accumulator + (t1 - t0) / 1000) / (FIXED_TIMESTEP : α)⌋).toNat : α)
      = ((⌊(s.accumulator + (t1 - t0) / 1000) / (FIXED_TIMESTEP : α)⌋ : ℤ) : α) := by
    exact_mod_cast Int.toNat_of_nonneg hn1nn
  have hrem := accum_remainder (s.accumulator + (t1 - t0) / 1000) ha1nn
  have hFTne : (FIXED_TIMESTEP : α) ≠ 0 := ne_of_gt FT_pos
  have hdiv2 : (s.accumulator + (t1 - t0) / 1000 -
        ((⌊(s.accumulator + (t1 - t0) / 1000) / (FIXED_TIMESTEP : α)⌋).toNat : α) *
          FIXED_TIMESTEP + (t2 - t1) / 1000) / (FIXED_TIMESTEP : α) =
      (s.accumulator + (t2 - t0) / 1000) / FIXED_TIMESTEP -
        ((⌊(s.accumulator + (t1 - t0) / 1000) / (FIXED_TIMESTEP : α)⌋ : ℤ) : α) := by
    rw [hn1c, ← hsum, sub_add_eq_add_sub, sub_div, mul_div_assoc, div_self hFTne, mul_one]
    congr 2
    ring
  have hfloor2 : ⌊(s.accumulator + (t1 - t0) / 1000 -
        ((⌊(s.accumulator + (t1 - t0) / 1000) / (FIXED_TIMESTEP : α)⌋).toNat : α) *
          FIXED_TIMESTEP + (t2 - t1) / 1000) / (FIXED_TIMESTEP : α)⌋ =
      ⌊(s.accumulator + (t2 - t0) / 1000) / (FIXED_TIMESTEP : α)⌋ -
        ⌊(s.accumulator + (t1 - t0) / 1000) / (FIXED_TIMESTEP : α)⌋ := by
    rw [hdiv2, Int.floor_sub_int]
  have hx2nn : (0 : α) ≤ s.accumulator + (t1 - t0) / 1000 -
      ((⌊(s.accumulator + (t1 - t0) / 1000) / (FIXED_TIMESTEP : α)⌋).toNat : α) *
        FIXED_TIMESTEP + (t2 - t1) / 1000 := by linarith [hrem.1]
  have hm2nn : (0 : ℤ) ≤ ⌊(s.accumulator + (t1 - t0) / 1000 -
      ((⌊(s.accumulator + (t1 - t0) / 1000) / (FIXED_TIMESTEP : α)⌋).toNat : α) *
        FIXED_TIMESTEP + (t2 - t1) / 1000) / (FIXED_TIMESTEP : α)⌋ :=
    Int.floor_nonneg.mpr (div_nonneg hx2nn FT_pos.le)
  have hsplit : (⌊(s.accumulator + (t1 - t0) / 1000 -
        ((⌊(s.accumulator + (t1 - t0) / 1000) / (FIXED_TIMESTEP : α)⌋).toNat : α) *
          FIXED_TIMESTEP + (t2 - t1) / 1000) / (FIXED_TIMESTEP : α)⌋).toNat +
      (⌊(s.accumulator + (t1 - t0) / 1000) / (FIXED_TIMESTEP : α)⌋).toNat =
      (⌊(s.accumulator + (t2 - t0) / 1000) / (FIXED_TIMESTEP : α)⌋).toNat := by
    omega
  have hcast : ((⌊(s.accumulator + (t1 - t0) / 1000 -
        ((⌊(s.accumulator + (t1 - t0) / 1000) / (FIXED_TIMESTEP : α)⌋).toNat : α) *
          FIXED_TIMESTEP + (t2 - t1) / 1000) / (FIXED_TIMESTEP : α)⌋).toNat : α) +
      ((⌊(s.accumulator + (t1 - t0) / 1000) / (FIXED_TIMESTEP : α)⌋).toNat : α) =
      ((⌊(s.accumulator + (t2 - t0) / 1000) / (FIXED_TIMESTEP : α)⌋).toNat : α) := by
    exact_mod_cast congrArg (fun k : ℕ => (k : α)) hsplit
  have hcastFT : ((⌊(s.accumulator + (t1 - t0) / 1000 -
        ((⌊(s.accumulator + (t1 - t0) / 1000) / (FIXED_TIMESTEP : α)⌋).toNat : α) *
          FIXED_TIMESTEP + (t2 - t1) / 1000) / (FIXED_TIMESTEP : α)⌋).toNat : α) *
          FIXED_TIMESTEP +
      ((⌊(s.accumulator + (t1 - t0) / 1000) / (FIXED_TIMESTEP : α)⌋).toNat : α) *
        FIXED_TIMESTEP =
      ((⌊(s.accumulator + (t2 - t0) / 1000) / (FIXED_TIMESTEP : α)⌋).toNat : α) *
        FIXED_TIMESTEP := by
    rw [← add_mul, hcast]
  rw [h1, h2, hT]
  ext : 1
  · dsimp only
    rw [Prod.mk.eta, ← Function.iterate_add_apply, hsplit]
  · dsimp only
    rw [Prod.mk.eta, ← Function.iterate_add_apply, hsplit]
  · rfl
  · dsimp only
    linarith [hcastFT, hsum]
  · rfl

/-- Witness for C3 (amended): splitting a 90 ms advance at the 40 ms mark
yields exactly the single-call state. -/
theorem update_merge_calls_witness :
    (0 : ℚ) ≤ 40 ∧ (40 : ℚ) ≤ 90 ∧ ((90 : ℚ) - 0) / 1000 ≤ MAX_FRAME_TIME ∧
    (update (0 : ℚ) 0 ⟨120, 18, 20, 100, false, false⟩
        ((update (0 : ℚ) 0 ⟨120, 18, 20, 100, false, false⟩ ⟨0, 0, 1, 0, some 0⟩ 40).1)
        90).1 =
      (update (0 : ℚ) 0 ⟨120, 18, 20, 100, false, false⟩ ⟨0, 0, 1, 0, some 0⟩ 90).1 :=
  ⟨by norm_num, by norm_num, by norm_num [MAX_FRAME_TIME],
    update_merge_calls 0 0 ⟨120, 18, 20, 100, false, false⟩ ⟨0, 0, 1, 0, some 0⟩ 0 40 90
      rfl rfl (by norm_num) (by norm_num) (by norm_num [MAX_FRAME_TIME]) le_rfl⟩

/-- The state after a single `update` call spanning a full 1-second gap
(from `lastTime = 0` to `t = 1000` ms), with strong-spring parameters
(`stiffness 120`, `damping 18`, `maxAccel 120`, `maxVelocity 10⁶`, target
angle 10⁶). The `MAX_FRAME_TIME` cap limits this call to 0.1 s of physics
(12 steps). -/
def singleCallState : PhysState ℚ :=
  (update 0 0 ⟨120, 18, 1000000, 120, false, false⟩ ⟨0, 0, 1000000, 0, some 0⟩ 1000).1

/-- The state after 60 `update` calls of `1000/60 ≈ 16.7` ms each covering
the same 1-second gap (120 steps in total). -/
def multiCallState : PhysState ℚ :=
  (((List.range 60).map (fun k => ((k : ℚ) + 1) * (50 / 3))).foldl
    (fun st t => (update 0 0 ⟨120, 18, 1000000, 120, false, false⟩ st t).1)
    ⟨0, 0, 1000000, 0, some 0⟩)

set_option maxRecDepth 400000 in
/-- Counterexample for C3 as stated: with identical target and parameters,
one 1-second `update` call ends at angle `13/20` while 60 calls of
`~16.7` ms end at `121/2` — the two differ by `59.85` rad, far outside any
floating-point tolerance, because the single call is capped at
`MAX_FRAME_TIME = 0.1` s. -/
theorem framerate_one_second_cex :
    multiCallState.angle = 121 / 2 ∧ singleCallState.angle = 13 / 20 ∧
    59 < |multiCallState.angle - singleCallState.angle| := by
  refine ⟨?_, ?_, ?_⟩ <;> with_unfolding_all decide

/-- Needle at rest exactly at its target: the configuration of the state
produced by `setTarget(x, immediate = true)`. -/
def restAt (a0 : α) (s : PhysState α) : Prop :=
  s.angle = a0 ∧ s.velocity = 0 ∧ s.targetAngle = a0

section RestLemmas

variable {p : PhysParams α}

lemma restAt_setTarget (s : PhysState α) (a0 : α) :
    restAt a0 (setTarget p s a0 true) := by
  simp [restAt, setTarget]

lemma restAt_step (hma : 0 ≤ p.maxAccel) (hmv : 0 ≤ p.maxVelocity)
    {a0 : α} {s : PhysState α} (h : restAt a0 s) :
    step p FIXED_TIMESTEP s = s := by
  obtain ⟨h1, h2, h3⟩ := h
  have hacc : p.stiffness * (s.targetAngle - s.angle) - p.damping * s.velocity = 0 := by
    rw [h1, h2, h3]; ring
  have hclamp : max (-p.maxAccel) (min p.maxAccel
      (p.stiffness * (s.targetAngle - s.angle) - p.damping * s.velocity)) = 0 := by
    rw [hacc, min_eq_right hma, max_eq_right (neg_nonpos.mpr hma)]
  have hv : max (-p.maxVelocity) (min p.maxVelocity
      (s.velocity + (0 : α) * FIXED_TIMESTEP)) = 0 := by
    rw [h2, zero_mul, add_zero, min_eq_right hmv, max_eq_right (neg_nonpos.mpr hmv)]
  simp only [step, hclamp, hv]
  ext : 1 <;> simp [h2]

lemma restAt_loopBody (hma : 0 ≤ p.maxAccel) (hmv : 0 ≤ p.maxVelocity)
    {a0 : α} {s : PhysState α} (h : restAt a0 s) :
    restAt a0 (loopBody p s) := by
  rw [loopBody, restAt_step hma hmv h]
  exact h

lemma restAt_physLoop (hma : 0 ≤ p.maxAccel) (hmv : 0 ≤ p.maxVelocity)
    {a0 : α} (n : ℕ) {s : PhysState α} (h : restAt a0 s) :
    restAt a0 (physLoop p n s) := by
  induction n generalizing s with
  | zero => exact h
  | succ n ih =>
    rw [physLoop]
    by_cases hc : (FIXED_TIMESTEP : α) ≤ s.accumulator
    · rw [if_pos hc]
      exact ih (restAt_loopBody hma hmv h)
    · rw [if_neg hc]
      exact h

lemma restAt_update (hma : 0 ≤ p.maxAccel) (hmv : 0 ≤ p.maxVelocity)
    (hvib : p.vibrationEnabled = false)
    {a0 : α} (piv rand t : α) {s : PhysState α} (h : restAt a0 s) :
    restAt a0 (update piv rand p s t).1 ∧ (update piv rand p s t).2 = a0 := by
  obtain ⟨h1, h2, h3⟩ := h
  match hlt : s.lastTime with
  | none =>
    simp only [update, hlt]
    exact ⟨⟨h1, h2, h3⟩, h1⟩
  | some lastT =>
    simp only [update, hlt]
    by_cases hrm : p.reducedMotion
    · simp only [hrm, if_true]
      exact ⟨⟨h3, rfl, h3⟩, h3⟩
    · simp only [hrm, if_false, hvib, Bool.false_and, Bool.false_eq_true]
      refine ⟨restAt_physLoop hma hmv _ ⟨h1, h2, h3⟩, (restAt_physLoop hma hmv _ ?_).1⟩
      exact ⟨h1, h2, h3⟩

end RestLemmas

/-- C4: after `setTarget(x, immediate = true)` the needle is at rest
exactly at `x`'s mapped angle, and any number of subsequent `update` calls
with the same timestamp `t` leaves the stored angle and velocity unchanged
and returns the mapped angle (vibration disabled, as at construction; the
clamps are nonnegative, as guaranteed by the constructor defaults). -/
theorem immediate_idempotent (piv rand : α) (cfg : GaugeConfig α) (p : PhysParams α)
    (s : PhysState α) (x t a : α) (n : ℕ)
    (hvib : p.vibrationEnabled = false)
    (hma : 0 ≤ p.maxAccel) (hmv : 0 ≤ p.maxVelocity)
    (ha : a = valueToAngle piv cfg (some x)) :
    ((fun st => (update piv rand p st t).1)^[n] (setTarget p s a true)).angle = a ∧
    ((fun st => (update piv rand p st t).1)^[n] (setTarget p s a true)).velocity = 0 ∧
    (update piv rand p ((fun st => (update piv rand p st t).1)^[n] (setTarget p s a true)) t).2
      = a := by
  have hiter : ∀ m : ℕ,
      restAt a ((fun st => (update piv rand p st t).1)^[m] (setTarget p s a true)) := by
    intro m
    induction m with
    | zero => exact restAt_setTarget s a
    | succ m ih =>
      rw [Function.iterate_succ_apply']
      exact (restAt_update hma hmv hvib piv rand t ih).1
  refine ⟨(hiter n).1, (hiter n).2.1, ?_⟩
  exact (restAt_update hma hmv hvib piv rand t (hiter n)).2

/-- Witness for C4 at the `speed` preset with `x = 70` (mapped angle
`-22/7` under the rational π stand-in), from an arbitrary dirty initial
state, iterating 4 `update` calls at the same timestamp. -/
theorem immediate_idempotent_witness :
    ((false : Bool) = false ∧ (0 : ℚ) ≤ 100 ∧ (0 : ℚ) ≤ 20 ∧
      (-22 / 7 : ℚ) = valueToAngle (22 / 7) ⟨0, 140, -225, 45, 8, [], none, none⟩ (some 70)) ∧
    (((fun st => (update (22 / 7 : ℚ) 0 ⟨120, 18, 20, 100, false, false⟩ st 100).1)^[4]
        (setTarget ⟨120, 18, 20, 100, false, false⟩ ⟨5, 3, 2, 0, some 0⟩ (-22 / 7) true)).angle
        = -22 / 7 ∧
      ((fun st => (update (22 / 7 : ℚ) 0 ⟨120, 18, 20, 100, false, false⟩ st 100).1)^[4]
        (setTarget ⟨120, 18, 20, 100, false, false⟩ ⟨5, 3, 2, 0, some 0⟩ (-22 / 7) true)).velocity
        = 0 ∧
      (update (22 / 7 : ℚ) 0 ⟨120, 18, 20, 100, false, false⟩
        ((fun st => (update (22 / 7 : ℚ) 0 ⟨120, 18, 20, 100, false, false⟩ st 100).1)^[4]
          (setTarget ⟨120, 18, 20, 100, false, false⟩ ⟨5, 3, 2, 0, some 0⟩ (-22 / 7) true))
        100).2 = -22 / 7) :=
  ⟨⟨rfl, by norm_num, by norm_num, by with_unfolding_all decide⟩,
    immediate_idempotent (22 / 7) 0 ⟨0, 140, -225, 45, 8, [], none, none⟩
      ⟨120, 18, 20, 100, false, false⟩ ⟨5, 3, 2, 0, some 0⟩ 70 100 (-22 / 7) 4
      rfl (by norm_num) (by norm_num) (by with_unfolding_all decide)⟩

/-- The C10 invariant: accumulator in `[0, FIXED_TIMESTEP)` and velocity
magnitude at most `maxVelocity`. -/
def physInv (p : PhysParams α) (s : PhysState α) : Prop :=
  0 ≤ s.accumulator ∧ s.accumulator < FIXED_TIMESTEP ∧ |s.velocity| ≤ p.maxVelocity

section InvariantLemmas

variable {p : PhysParams α}

lemma clamp_abs_le (m w : α) (hm : 0 ≤ m) : |max (-m) (min m w)| ≤ m := by
  rw [abs_le]
  exact ⟨le_max_left _ _, max_le (by linarith) (min_le_left _ _)⟩

lemma physInv_setTarget (h : physInv p s) (a : α) (imm : Bool) :
    physInv p (setTarget p s a imm) := by
  obtain ⟨h1, h2, h3⟩ := h
  have hmv : 0 ≤ p.maxVelocity := le_trans (abs_nonneg _) h3
  rw [setTarget]
  by_cases hc : (imm || p.reducedMotion) = true
  · simp only [hc, if_true]
    exact ⟨h1, h2, by simpa using hmv⟩
  · simp only [hc, if_false]
    exact ⟨h1, h2, h3⟩

lemma specStep_velocity_abs (hmv : 0 ≤ p.maxVelocity) (target : α) (st : α × α) :
    |(specStep p target st).2| ≤ p.maxVelocity :=
  clamp_abs_le _ _ hmv

lemma iterate_velocity_abs (hmv : 0 ≤ p.maxVelocity) (target : α) (st : α × α)
    (h : |st.2| ≤ p.maxVelocity) (n : ℕ) :
    |((specStep p target)^[n] st).2| ≤ p.maxVelocity := by
  cases n with
  | zero => exact h
  | succ n =>
    rw [Function.iterate_succ_apply']
    exact specStep_velocity_abs hmv target _

lemma physInv_update (piv rand t : α) {s : PhysState α} (h : physInv p s) :
    physInv p (update piv rand p s t).1 := by
  obtain ⟨h1, h2, h3⟩ := h
  have hmv : 0 ≤ p.maxVelocity := le_trans (abs_nonneg _) h3
  match hlt : s.lastTime with
  | none =>
    simp only [update, hlt]
    exact ⟨h1, h2, h3⟩
  | some lastT =>
    by_cases hrm : p.reducedMotion
    · simp only [update, hlt, hrm, if_true]
      exact ⟨h1, h2, by simpa using hmv⟩
    · have hrm' : p.reducedMotion = false := by simpa using hrm
      rw [update_closed piv rand p s t lastT hlt hrm']
      have ha0 : 0 ≤ s.accumulator + uFT t lastT := add_nonneg h1 (uFT_nonneg t lastT)
      have hrem := accum_remainder (s.accumulator + uFT t lastT) ha0
      exact ⟨hrem.1, hrem.2, iterate_velocity_abs hmv _ _ h3 _⟩

lemma runPhys_inv (piv rand : α) (events : List (PhysEvent α)) :
    ∀ s : PhysState α, physInv p s → physInv p (runPhys piv rand p s events) := by
  induction events with
  | nil => intro s h; exact h
  | cons e es ih =>
    intro s h
    cases e with
    | set a imm => exact ih _ (physInv_setTarget h a imm)
    | upd t => exact ih _ (physInv_update piv rand t h)

end InvariantLemmas

/-- C10: from the freshly constructed motion state (angle = velocity =
accumulator = 0, no recorded timestamp) with `maxVelocity > 0`, after
every sequence of `setTarget`/`update` calls the accumulator lies in
`[0, 1/120)` and the velocity magnitude never exceeds `maxVelocity`. -/
theorem phys_invariant (piv rand : α) (p : PhysParams α) (hmv : 0 < p.maxVelocity)
    (events : List (PhysEvent α)) :
    0 ≤ (runPhys piv rand p ⟨0, 0, 0, 0, none⟩ events).accumulator ∧
    (runPhys piv rand p ⟨0, 0, 0, 0, none⟩ events).accumulator < FIXED_TIMESTEP ∧
    |(runPhys piv rand p ⟨0, 0, 0, 0, none⟩ events).velocity| ≤ p.maxVelocity := by
  have hinit : physInv p ⟨0, 0, 0, 0, none⟩ := by
    refine ⟨le_refl 0, FT_pos, ?_⟩
    simpa using hmv.le
  exact runPhys_inv piv rand events _ hinit

/-- Witness for C10: a concrete mixed trace of `setTarget` and `update`
calls with the default parameters. -/
theorem phys_invariant_witness :
    ((0 : ℚ) < 20) ∧
    (0 ≤ (runPhys (0 : ℚ) 0 ⟨120, 18, 20, 100, false, false⟩ ⟨0, 0, 0, 0, none⟩
        [PhysEvent.set 1 true, PhysEvent.upd 0, PhysEvent.upd 9, PhysEvent.set 2 false,
          PhysEvent.upd 25]).accumulator ∧
      (runPhys (0 : ℚ) 0 ⟨120, 18, 20, 100, false, false⟩ ⟨0, 0, 0, 0, none⟩
        [PhysEvent.set 1 true, PhysEvent.upd 0, PhysEvent.upd 9, PhysEvent.set 2 false,
          PhysEvent.upd 25]).accumulator < FIXED_TIMESTEP ∧
      |(runPhys (0 : ℚ) 0 ⟨120, 18, 20, 100, false, false⟩ ⟨0, 0, 0, 0, none⟩
        [PhysEvent.set 1 true, PhysEvent.upd 0, PhysEvent.upd 9, PhysEvent.set 2 false,
          PhysEvent.upd 25]).velocity| ≤ (20 : ℚ)) :=
  ⟨by norm_num,
    phys_invariant 0 0 ⟨120, 18, 20, 100, false, false⟩ (by norm_num)
      [PhysEvent.set 1 true, PhysEvent.upd 0, PhysEvent.upd 9, PhysEvent.set 2 false,
        PhysEvent.upd 25]⟩

section SweepLemmas

variable {cfg : GaugeConfig α} {p : PhysParams α}

lemma renderFrame_not_sweeping (piv rand t : α) {g : GaugeState α}
    (h : g.isSweeping = false) :
    renderFrame piv cfg p rand g t =
      ({ g with phys := (update piv rand p g.phys t).1 }, false) := by
  simp [renderFrame, h]

lemma setValue_isSweeping (piv : α) (g : GaugeState α) (v : α) (imm : Bool) :
    (setValue piv cfg p g v imm).isSweeping = g.isSweeping := by
  rw [setValue]
  by_cases hc : g.isSweeping <;> simp [hc]

lemma runGauge_no_emit (piv : α) (events : List (GaugeEvent α)) :
    ∀ g : GaugeState α, g.isSweeping = false → (runGauge piv cfg p g events).2 = 0 := by
  induction events with
  | nil => intro g h; rfl
  | cons e es ih =>
    intro g h
    cases e with
    | frame t rand =>
      rw [runGauge, renderFrame_not_sweeping piv rand t h]
      simp only [Bool.false_eq_true, if_false, zero_add]
      exact ih _ h
    | setV v imm =>
      rw [runGauge]
      exact ih _ (by rw [setValue_isSweeping, h])

end SweepLemmas

/-- C5: the sweep sequence. Starting a sweep forces the physics target to
the mapped `max` and enters the up phase; the up phase is inert until
800 ms have elapsed, at which point the machine moves to the down phase
and retargets to the mapped `min`; the down phase persists until the
physics settles within the looser `0.01` threshold, at which point the
machine retargets to the remembered value, returns to idle, and emits the
completion signal; once idle (`isSweeping = false`) no later frame or
`setValue` call emits again, so the signal fires exactly once; and while
sweeping, `setValue` records the value but leaves the physics state — in
particular its target angle — untouched. -/
theorem sweep_machine (piv rand : α) (cfg : GaugeConfig α) (p : PhysParams α)
    (g : GaugeState α) (t : α) :
    ((sweepStart piv cfg p g t).phys.targetAngle = valueToAngle piv cfg (some cfg.max) ∧
      (sweepStart piv cfg p g t).sweepPhase = SweepPhase.up ∧
      (sweepStart piv cfg p g t).isSweeping = true) ∧
    (g.sweepPhase = SweepPhase.up → t - g.sweepStartTime < sweepDuration →
      updateSweep piv cfg p g t = (g, false)) ∧
    (g.sweepPhase = SweepPhase.up → sweepDuration ≤ t - g.sweepStartTime →
      updateSweep piv cfg p g t =
        ({ g with
            sweepPhase := SweepPhase.down, sweepStartTime := t,
            phys := setTarget p g.phys (valueToAngle piv cfg (some cfg.min)) false },
          false)) ∧
    (g.sweepPhase = SweepPhase.down → isSettled g.phys (1 / 100) = false →
      updateSweep piv cfg p g t = (g, false)) ∧
    (g.sweepPhase = SweepPhase.down → isSettled g.phys (1 / 100) = true →
      updateSweep piv cfg p g t =
        ({ g with
            isSweeping := false, sweepPhase := SweepPhase.idle,
            phys := setTarget p g.phys (valueToAngle piv cfg (some g.targetValue)) false },
          true)) ∧
    (g.isSweeping = false → ∀ events : List (GaugeEvent α),
      (runGauge piv cfg p g events).2 = 0) ∧
    (g.isSweeping = true → ∀ v : α, ∀ imm : Bool,
      setValue piv cfg p g v imm = { g with targetValue := v }) := by
  refine ⟨⟨by simp only [sweepStart, setTarget]; split <;> rfl, rfl, rfl⟩,
    ?_, ?_, ?_, ?_, ?_, ?_⟩
  · intro hph helapsed
    rw [updateSweep]
    simp only [hph]
    rw [if_neg (not_le.mpr helapsed)]
  · intro hph helapsed
    rw [updateSweep]
    simp only [hph]
    rw [if_pos helapsed]
  · intro hph hset
    rw [updateSweep]
    simp only [hph, hset, Bool.false_eq_true, if_false]
  · intro hph hset
    rw [updateSweep]
    simp only [hph, hset, if_true]
  · intro hidle events
    exact runGauge_no_emit piv events g hidle
  · intro hsw v imm
    rw [setValue]
    simp [hsw]

/-- Witness for C5: the sweep conjuncts instantiated at concrete rational
gauges in each relevant phase (`min = 0`, `max = 100`, `startAngle = -225`,
`endAngle = 45`). -/
theorem sweep_machine_witness :
    ((sweepStart (22 / 7 : ℚ) ⟨0, 100, -225, 45, 5, [], none, none⟩
        ⟨120, 18, 20, 100, false, false⟩
        ⟨50, false, SweepPhase.idle, 0, ⟨1, 0, 1, 0, some 0⟩⟩ 5).phys.targetAngle =
      valueToAngle (22 / 7) ⟨0, 100, -225, 45, 5, [], none, none⟩ (some 100)) ∧
    (updateSweep (22 / 7 : ℚ) ⟨0, 100, -225, 45, 5, [], none, none⟩
        ⟨120, 18, 20, 100, false, false⟩
        ⟨50, true, SweepPhase.up, 0, ⟨1, 0, 1, 0, some 0⟩⟩ 300 =
      (⟨50, true, SweepPhase.up, 0, ⟨1, 0, 1, 0, some 0⟩⟩, false)) ∧
    (updateSweep (22 / 7 : ℚ) ⟨0, 100, -225, 45, 5, [], none, none⟩
        ⟨120, 18, 20, 100, false, false⟩
        ⟨50, true, SweepPhase.up, 0, ⟨1, 0, 1, 0, some 0⟩⟩ 800 =
      (⟨50, true, SweepPhase.down, 800,
        setTarget ⟨120, 18, 20, 100, false, false⟩ ⟨1, 0, 1, 0, some 0⟩
          (valueToAngle (22 / 7) ⟨0, 100, -225, 45, 5, [], none, none⟩ (some 0)) false⟩,
        false)) ∧
    (updateSweep (22 / 7 : ℚ) ⟨0, 100, -225, 45, 5, [], none, none⟩
        ⟨120, 18, 20, 100, false, false⟩
        ⟨50, true, SweepPhase.down, 0, ⟨1, 0, 2, 0, some 0⟩⟩ 900 =
      (⟨50, true, SweepPhase.down, 0, ⟨1, 0, 2, 0, some 0⟩⟩, false)) ∧
    (updateSweep (22 / 7 : ℚ) ⟨0, 100, -225, 45, 5, [], none, none⟩
        ⟨120, 18, 20, 100, false, false⟩
        ⟨50, true, SweepPhase.down, 0, ⟨2, 0, 2, 0, some 0⟩⟩ 900 =
      (⟨50, false, SweepPhase.idle, 0,
        setTarget ⟨120, 18, 20, 100, false, false⟩ ⟨2, 0, 2, 0, some 0⟩
          (valueToAngle (22 / 7) ⟨0, 100, -225, 45, 5, [], none, none⟩ (some 50)) false⟩,
        true)) ∧
    ((runGauge (22 / 7 : ℚ) ⟨0, 100, -225, 45, 5, [], none, none⟩
        ⟨120, 18, 20, 100, false, false⟩
        ⟨50, false, SweepPhase.idle, 0, ⟨2, 0, 2, 0, some 0⟩⟩
        [GaugeEvent.frame 10 0, GaugeEvent.setV 70 false, GaugeEvent.frame 20 0]).2 = 0) ∧
    (setValue (22 / 7 : ℚ) ⟨0, 100, -225, 45, 5, [], none, none⟩
        ⟨120, 18, 20, 100, false, false⟩
        ⟨50, true, SweepPhase.up, 0, ⟨1, 0, 1, 0, some 0⟩⟩ 70 false =
      ⟨70, true, SweepPhase.up, 0, ⟨1, 0, 1, 0, some 0⟩⟩) := by
  refine ⟨(sweep_machine (22 / 7) 0 ⟨0, 100, -225, 45, 5, [], none, none⟩
      ⟨120, 18, 20, 100, false, false⟩
      ⟨50, false, SweepPhase.idle, 0, ⟨1, 0, 1, 0, some 0⟩⟩ 5).1.1,
    (sweep_machine (22 / 7) 0 ⟨0, 100, -225, 45, 5, [], none, none⟩
      ⟨120, 18, 20, 100, false, false⟩
      ⟨50, true, SweepPhase.up, 0, ⟨1, 0, 1, 0, some 0⟩⟩ 300).2.1 rfl
      (by norm_num [sweepDuration]),
    (sweep_machine (22 / 7) 0 ⟨0, 100, -225, 45, 5, [], none, none⟩
      ⟨120, 18, 20, 100, false, false⟩
      ⟨50, true, SweepPhase.up, 0, ⟨1, 0, 1, 0, some 0⟩⟩ 800).2.2.1 rfl
      (by norm_num [sweepDuration]),
    (sweep_machine (22 / 7) 0 ⟨0, 100, -225, 45, 5, [], none, none⟩
      ⟨120, 18, 20, 100, false, false⟩
      ⟨50, true, SweepPhase.down, 0, ⟨1, 0, 2, 0, some 0⟩⟩ 900).2.2.2.1 rfl
      (by with_unfolding_all decide),
    (sweep_machine (22 / 7) 0 ⟨0, 100, -225, 45, 5, [], none, none⟩
      ⟨120, 18, 20, 100, false, false⟩
      ⟨50, true, SweepPhase.down, 0, ⟨2, 0, 2, 0, some 0⟩⟩ 900).2.2.2.2.1 rfl
      (by with_unfolding_all decide),
    (sweep_machine (22 / 7) 0 ⟨0, 100, -225, 45, 5, [], none, none⟩
      ⟨120, 18, 20, 100, false, false⟩
      ⟨50, false, SweepPhase.idle, 0, ⟨2, 0, 2, 0, some 0⟩⟩ 5).2.2.2.2.2.1 rfl
      [GaugeEvent.frame 10 0, GaugeEvent.setV 70 false, GaugeEvent.frame 20 0],
    (sweep_machine (22 / 7) 0 ⟨0, 100, -225, 45, 5, [], none, none⟩
      ⟨120, 18, 20, 100, false, false⟩
      ⟨50, true, SweepPhase.up, 0, ⟨1, 0, 1, 0, some 0⟩⟩ 5).2.2.2.2.2.2 rfl 70 false⟩

/-- C6 (amended): when the configured zone list is empty and a legacy
scalar is truthy (present and nonzero, per JavaScript truthiness),
`drawZones` uses exactly one synthesized zone from that threshold to
`max` — `redlineStart` taking precedence, `dangerStart` used when
`redlineStart` is absent or zero; when the configured zone list is
non-empty it is used unchanged and nothing is synthesized, even if
`redlineStart` is also set. (A present but zero threshold synthesizes
nothing; see the counterexample.) -/
theorem resolveZones_spec (cfg : GaugeConfig α) (t0 : α) :
    (cfg.zones = [] → cfg.redlineStart = some t0 → t0 ≠ 0 →
      resolveZones cfg =
        [{ start := t0, zend := cfg.max, color := zoneRed, offset := none, width := none }]) ∧
    (cfg.zones = [] → (cfg.redlineStart = none ∨ cfg.redlineStart = some 0) →
      cfg.dangerStart = some t0 → t0 ≠ 0 →
      resolveZones cfg =
        [{ start := t0, zend := cfg.max, color := zoneRed, offset := none, width := none }]) ∧
    (cfg.zones ≠ [] → resolveZones cfg = cfg.zones) := by
  refine ⟨?_, ?_, ?_⟩
  · intro hz hr ht
    rw [resolveZones]
    simp [hz, hr, truthy, ht]
  · intro hz hr hd ht
    rw [resolveZones]
    rcases hr with hr | hr <;> simp [hz, hr, hd, truthy, ht]
  · intro hz
    rw [resolveZones]
    have : cfg.zones.isEmpty = false := by
      cases hzz : cfg.zones with
      | nil => exact absurd hzz hz
      | cons a l => rfl
    simp [this]

/-- Witness for C6: empty zones with `redlineStart = 60, max = 80` yield
exactly the synthesized zone `[60, 80]`; a configuration with an explicit
zone keeps it unchanged even though `redlineStart` is also set. -/
theorem resolveZones_spec_witness :
    (resolveZones (⟨0, 80, -225, 45, 5, [], some 60, none⟩ : GaugeConfig ℚ) =
      [{ start := 60, zend := 80, color := zoneRed, offset := none, width := none }]) ∧
    (resolveZones (⟨0, 80, -225, 45, 5,
        [{ start := 10, zend := 20, color := "#00FF00", offset := none, width := none }],
        some 60, none⟩ : GaugeConfig ℚ) =
      [{ start := 10, zend := 20, color := "#00FF00", offset := none, width := none }]) :=
  ⟨(resolveZones_spec (⟨0, 80, -225, 45, 5, [], some 60, none⟩ : GaugeConfig ℚ) 60).1
      rfl rfl (by norm_num),
    (resolveZones_spec (⟨0, 80, -225, 45, 5,
        [{ start := 10, zend := 20, color := "#00FF00", offset := none, width := none }],
        some 60, none⟩ : GaugeConfig ℚ) 60).2.2 (by simp)⟩

/-- Counterexample for C6 as stated: `redlineStart` is present (value `0`)
and the zone list is empty, yet no zone is synthesized — JavaScript
truthiness treats the threshold `0` as absent, refuting "a legacy
redlineStart … is present ⟹ exactly one synthesized zone". -/
theorem zone_fallback_zero_cex :
    (⟨0, 80, -225, 45, 5, [], some 0, none⟩ : GaugeConfig ℚ).zones = [] ∧
    (⟨0, 80, -225, 45, 5, [], some 0, none⟩ : GaugeConfig ℚ).redlineStart = some 0 ∧
    resolveZones (⟨0, 80, -225, 45, 5, [], some 0, none⟩ : GaugeConfig ℚ) = [] := by
  refine ⟨rfl, rfl, ?_⟩
  with_unfolding_all decide

/-- The `isDanger` test of `drawTicks`/`drawNumbers`, characterized: true
exactly when one of the legacy fields is present with a nonzero value not
exceeding the queried value. -/
lemma isDanger_iff (cfg : GaugeConfig α) (v : α) :
    isDanger cfg v = true ↔
      (∃ r, cfg.redlineStart = some r ∧ r ≠ 0 ∧ r ≤ v) ∨
      (∃ d, cfg.dangerStart = some d ∧ d ≠ 0 ∧ d ≤ v) := by
  rw [isDanger]
  cases hr : cfg.redlineStart with
  | none =>
    cases hd : cfg.dangerStart with
    | none => simp [truthy]
    | some d => simp [truthy]
  | some r =>
    cases hd : cfg.dangerStart with
    | none => simp [truthy]
    | some d => simp [truthy]

/-- C7 (amended): a major tick (and its label) is drawn with the redline
palette entry exactly when one of the legacy thresholds is configured with
a nonzero value and the tick's mapped value is `≥` that threshold — either
field can independently trigger the coloring; otherwise the normal
ticks/numbers colors are used. (A configured threshold of `0` never
triggers, contrary to the original claim; see the counterexample.) -/
theorem danger_coloring (cfg : GaugeConfig α) (pal : Palette) (i : ℕ)
    (hrt : pal.redline ≠ pal.ticks) (hrn : pal.redline ≠ pal.numbers) :
    (tickStrokeStyle cfg pal i = pal.redline ↔
      (∃ r, cfg.redlineStart = some r ∧ r ≠ 0 ∧ r ≤ tickValue cfg i) ∨
      (∃ d, cfg.dangerStart = some d ∧ d ≠ 0 ∧ d ≤ tickValue cfg i)) ∧
    (numberFillStyle cfg pal i = pal.redline ↔
      (∃ r, cfg.redlineStart = some r ∧ r ≠ 0 ∧ r ≤ tickValue cfg i) ∨
      (∃ d, cfg.dangerStart = some d ∧ d ≠ 0 ∧ d ≤ tickValue cfg i)) ∧
    (tickStrokeStyle cfg pal i = pal.redline ∨ tickStrokeStyle cfg pal i = pal.ticks) ∧
    (numberFillStyle cfg pal i = pal.redline ∨ numberFillStyle cfg pal i = pal.numbers) := by
  refine ⟨?_, ?_, ?_, ?_⟩
  · rw [tickStrokeStyle, ← isDanger_iff cfg (tickValue cfg i)]
    by_cases hc : isDanger cfg (tickValue cfg i) <;> simp [hc, hrt.symm]
  · rw [numberFillStyle, ← isDanger_iff cfg (tickValue cfg i)]
    by_cases hc : isDanger cfg (tickValue cfg i) <;> simp [hc, hrn.symm]
  · rw [tickStrokeStyle]
    by_cases hc : isDanger cfg (tickValue cfg i) <;> simp [hc]
  · rw [numberFillStyle]
    by_cases hc : isDanger cfg (tickValue cfg i) <;> simp [hc]

/-- Witness for C7 at an rpm-like configuration (`max = 80`,
`redlineStart = 60`, 9 major ticks): tick 7 maps to value 70 `≥ 60` and is
redline-colored; the characterization is instantiated concretely. -/
theorem danger_coloring_witness :
    (("#CC2020" : String) ≠ "#333333" ∧ ("#CC2020" : String) ≠ "#111111") ∧
    ((tickStrokeStyle (⟨0, 80, -225, 45, 9, [], some 60, none⟩ : GaugeConfig ℚ)
        ⟨"#FFF", "#F00", "#333333", "#666", "#111111", "#000", "#222", "#CC2020"⟩ 7 =
        "#CC2020" ↔
      (∃ r, (some (60 : ℚ) = some r) ∧ r ≠ 0 ∧
        r ≤ tickValue (⟨0, 80, -225, 45, 9, [], some 60, none⟩ : GaugeConfig ℚ) 7) ∨
      (∃ d, ((none : Option ℚ) = some d) ∧ d ≠ 0 ∧
        d ≤ tickValue (⟨0, 80, -225, 45, 9, [], some 60, none⟩ : GaugeConfig ℚ) 7)) ∧
      (numberFillStyle (⟨0, 80, -225, 45, 9, [], some 60, none⟩ : GaugeConfig ℚ)
        ⟨"#FFF", "#F00", "#333333", "#666", "#111111", "#000", "#222", "#CC2020"⟩ 7 =
        "#CC2020" ↔
      (∃ r, (some (60 : ℚ) = some r) ∧ r ≠ 0 ∧
        r ≤ tickValue (⟨0, 80, -225, 45, 9, [], some 60, none⟩ : GaugeConfig ℚ) 7) ∨
      (∃ d, ((none : Option ℚ) = some d) ∧ d ≠ 0 ∧
        d ≤ tickValue (⟨0, 80, -225, 45, 9, [], some 60, none⟩ : GaugeConfig ℚ) 7)) ∧
      (tickStrokeStyle (⟨0, 80, -225, 45, 9, [], some 60, none⟩ : GaugeConfig ℚ)
        ⟨"#FFF", "#F00", "#333333", "#666", "#111111", "#000", "#222", "#CC2020"⟩ 7 =
          "#CC2020" ∨
        tickStrokeStyle (⟨0, 80, -225, 45, 9, [], some 60, none⟩ : GaugeConfig ℚ)
        ⟨"#FFF", "#F00", "#333333", "#666", "#111111", "#000", "#222", "#CC2020"⟩ 7 =
          "#333333") ∧
      (numberFillStyle (⟨0, 80, -225, 45, 9, [], some 60, none⟩ : GaugeConfig ℚ)
        ⟨"#FFF", "#F00", "#333333", "#666", "#111111", "#000", "#222", "#CC2020"⟩ 7 =
          "#CC2020" ∨
        numberFillStyle (⟨0, 80, -225, 45, 9, [], some 60, none⟩ : GaugeConfig ℚ)
        ⟨"#FFF", "#F00", "#333333", "#666", "#111111", "#000", "#222", "#CC2020"⟩ 7 =
          "#111111")) :=
  ⟨⟨by decide, by decide⟩,
    danger_coloring (⟨0, 80, -225, 45, 9, [], some 60, none⟩ : GaugeConfig ℚ)
      ⟨"#FFF", "#F00", "#333333", "#666", "#111111", "#000", "#222", "#CC2020"⟩ 7
      (by decide) (by decide)⟩

/-- Counterexample for C7 as stated: with `redlineStart = 0` configured,
tick 2 of a 5-tick `[0, 100]` gauge maps to value `50 ≥ 0`, yet it is
drawn with the normal ticks color, not the redline color — a configured
threshold of `0` never triggers the coloring. -/
theorem danger_zero_threshold_cex :
    (⟨0, 100, -225, 45, 5, [], some 0, none⟩ : GaugeConfig ℚ).redlineStart = some 0 ∧
    (0 : ℚ) ≤ tickValue (⟨0, 100, -225, 45, 5, [], some 0, none⟩ : GaugeConfig ℚ) 2 ∧
    tickStrokeStyle (⟨0, 100, -225, 45, 5, [], some 0, none⟩ : GaugeConfig ℚ)
      ⟨"#FFF", "#F00", "#333333", "#666", "#111111", "#000", "#222", "#CC2020"⟩ 2 =
      "#333333" ∧
    ("#333333" : String) ≠ "#CC2020" := by
  refine ⟨rfl, ?_, ?_, by decide⟩
  · with_unfolding_all decide
  · with_unfolding_all decide

section GradientLemmas

lemma findBracket_sound : ∀ (l : List (GradStop α)) (t : α) (pr : GradStop α × GradStop α),
    findBracket l t = some pr →
    pr ∈ l.zip l.tail ∧ pr.1.atv ≤ t ∧ t ≤ pr.2.atv := by
  intro l
  induction l with
  | nil => intro t pr h; simp [findBracket] at h
  | cons s1 rest ih =>
    cases rest with
    | nil => intro t pr h; simp [findBracket] at h
    | cons s2 rest2 =>
      intro t pr h
      rw [findBracket] at h
      by_cases hc : s1.atv ≤ t ∧ t ≤ s2.atv
      · rw [if_pos hc] at h
        have hpr : pr = (s1, s2) := (Option.some.injEq _ _).mp h.symm
        subst hpr
        exact ⟨List.mem_cons_self _ _, hc.1, hc.2⟩
      · rw [if_neg hc] at h
        obtain ⟨hm, h1, h2⟩ := ih t pr h
        exact ⟨List.mem_cons_of_mem _ hm, h1, h2⟩

lemma findBracket_isSome : ∀ (rest : List (GradStop α)) (s1 s2 : GradStop α) (t : α),
    (s1 :: s2 :: rest).Chain' (fun a b => a.atv ≤ b.atv) →
    s1.atv ≤ t →
    t ≤ ((s1 :: s2 :: rest).getLast (List.cons_ne_nil s1 (s2 :: rest))).atv →
    (findBracket (s1 :: s2 :: rest) t).isSome = true := by
  intro rest
  induction rest with
  | nil =>
    intro s1 s2 t hmono h0 h1
    rw [findBracket]
    have hlast : ([s1, s2].getLast (List.cons_ne_nil s1 [s2])) = s2 := rfl
    rw [hlast] at h1
    rw [if_pos ⟨h0, h1⟩]
    rfl
  | cons s3 rest2 ih =>
    intro s1 s2 t hmono h0 h1
    rw [findBracket]
    by_cases hc : s1.atv ≤ t ∧ t ≤ s2.atv
    · rw [if_pos hc]; rfl
    · rw [if_neg hc]
      have h2 : s2.atv ≤ t := by
        rcases not_and_or.mp hc with hbad | hgt
        · exact absurd h0 hbad
        · exact (not_le.mp hgt).le
      have hlast : ((s1 :: s2 :: s3 :: rest2).getLast
          (List.cons_ne_nil s1 (s2 :: s3 :: rest2))) =
          ((s2 :: s3 :: rest2).getLast (List.cons_ne_nil s2 (s3 :: rest2))) :=
        List.getLast_cons (List.cons_ne_nil s2 (s3 :: rest2))
      rw [hlast] at h1
      exact ih s2 s3 t (List.chain'_cons.mp hmono).2 h2 h1

lemma findBracket_none_of_lt : ∀ (l : List (GradStop α)) (t : α),
    (∀ s ∈ l, t < s.atv) → findBracket l t = none := by
  intro l
  induction l with
  | nil => intro t h; rfl
  | cons s1 rest ih =>
    cases rest with
    | nil => intro t h; rfl
    | cons s2 rest2 =>
      intro t h
      rw [findBracket]
      rw [if_neg (by
        intro hc
        exact absurd hc.1 (not_le.mpr (h s1 (List.mem_cons_self _ _))))]
      exact ih t (fun s hs => h s (List.mem_cons_of_mem _ hs))

lemma chain_head_le : ∀ (l : List (GradStop α)) (a : GradStop α),
    (a :: l).Chain' (fun x y => x.atv ≤ y.atv) → ∀ s ∈ a :: l, a.atv ≤ s.atv := by
  intro l
  induction l with
  | nil =>
    intro a h s hs
    rw [List.mem_singleton.mp hs]
  | cons b l2 ih =>
    intro a h s hs
    rw [List.chain'_cons] at h
    rcases List.mem_cons.mp hs with hh | hs2
    · rw [hh]
    · exact le_trans h.1 (ih b h.2 s hs2)

lemma chain_le_getLast : ∀ (l : List (GradStop α)) (a : GradStop α),
    (a :: l).Chain' (fun x y => x.atv ≤ y.atv) →
    ∀ s ∈ a :: l, s.atv ≤ ((a :: l).getLast (List.cons_ne_nil a l)).atv := by
  intro l
  induction l with
  | nil =>
    intro a h s hs
    have hsa : s = a := List.mem_singleton.mp hs
    subst hsa
    exact le_refl _
  | cons b l2 ih =>
    intro a h s hs
    rw [List.chain'_cons] at h
    have hlast : ((a :: b :: l2).getLast (List.cons_ne_nil a (b :: l2))) =
        ((b :: l2).getLast (List.cons_ne_nil b l2)) :=
      List.getLast_cons (List.cons_ne_nil b l2)
    rw [hlast]
    rcases List.mem_cons.mp hs with rfl | hs2
    · exact le_trans h.1 (ih b h.2 b (List.mem_cons_self b l2))
    · exact ih b h.2 s hs2

lemma findBracket_none_of_gt : ∀ (l : List (GradStop α)) (t : α),
    (∀ s ∈ l.tail, s.atv < t) → findBracket l t = none := by
  intro l
  induction l with
  | nil => intro t h; rfl
  | cons s1 rest ih =>
    cases rest with
    | nil => intro t h; rfl
    | cons s2 rest2 =>
      intro t h
      rw [findBracket]
      rw [if_neg (by
        intro hc
        exact absurd hc.2 (not_le.mpr (h s2 (List.mem_cons_self _ _))))]
      exact ih t (fun s hs => h s (List.mem_cons_of_mem _ hs))

end GradientLemmas

/-- C9 (amended): for an ordered list of two or more stops, when the
clamped query position lies within the span of the stops,
`_interpolateGradient` selects an adjacent bracketing pair and returns the
channel-wise rounded linear interpolation between those two stops; when
the clamped query lies outside the span of the stops — below the first
stop or above the last — the first and last stops are used as the pair,
which linearly extrapolates beyond the endpoint colors rather than
clamping to the nearest endpoint color (see the counterexample). -/
theorem interpolateGradient_bracket (s0 s1 : GradStop α) (rest : List (GradStop α)) (t : α)
    (hmono : (s0 :: s1 :: rest).Chain' (fun a b => a.atv ≤ b.atv)) :
    (s0.atv ≤ max 0 (min 1 t) →
      max 0 (min 1 t) ≤
        ((s0 :: s1 :: rest).getLast (List.cons_ne_nil s0 (s1 :: rest))).atv →
      ∃ lower upper,
        (lower, upper) ∈ (s0 :: s1 :: rest).zip (s1 :: rest) ∧
        lower.atv ≤ max 0 (min 1 t) ∧ max 0 (min 1 t) ≤ upper.atv ∧
        interpolateGradient (s0 :: s1 :: rest) t =
          some (lerpRGB lower.color upper.color
            (if 0 < upper.atv - lower.atv
              then (max 0 (min 1 t) - lower.atv) / (upper.atv - lower.atv) else 0))) ∧
    (max 0 (min 1 t) < s0.atv →
      interpolateGradient (s0 :: s1 :: rest) t =
        some (lerpRGB s0.color
          ((s0 :: s1 :: rest).getLast (List.cons_ne_nil s0 (s1 :: rest))).color
          (if 0 < ((s0 :: s1 :: rest).getLast
                (List.cons_ne_nil s0 (s1 :: rest))).atv - s0.atv
            then (max 0 (min 1 t) - s0.atv) /
              (((s0 :: s1 :: rest).getLast (List.cons_ne_nil s0 (s1 :: rest))).atv - s0.atv)
            else 0))) ∧
    (((s0 :: s1 :: rest).getLast (List.cons_ne_nil s0 (s1 :: rest))).atv <
        max 0 (min 1 t) →
      interpolateGradient (s0 :: s1 :: rest) t =
        some (lerpRGB s0.color
          ((s0 :: s1 :: rest).getLast (List.cons_ne_nil s0 (s1 :: rest))).color
          (if 0 < ((s0 :: s1 :: rest).getLast
                (List.cons_ne_nil s0 (s1 :: rest))).atv - s0.atv
            then (max 0 (min 1 t) - s0.atv) /
              (((s0 :: s1 :: rest).getLast (List.cons_ne_nil s0 (s1 :: rest))).atv - s0.atv)
            else 0))) := by
  refine ⟨?_, ?_, ?_⟩
  · intro h0 h1
    have hsome := findBracket_isSome rest s0 s1 (max 0 (min 1 t)) hmono h0 h1
    obtain ⟨pr, hpr⟩ := Option.isSome_iff_exists.mp hsome
    obtain ⟨hm, hl, hu⟩ := findBracket_sound _ (max 0 (min 1 t)) pr hpr
    refine ⟨pr.1, pr.2, ?_, hl, hu, ?_⟩
    · simpa using hm
    · simp only [interpolateGradient]
      rw [hpr, Option.getD_some]
  · intro hlt
    have hall : ∀ s ∈ s0 :: s1 :: rest, max 0 (min 1 t) < s.atv := fun s hs =>
      lt_of_lt_of_le hlt (chain_head_le (s1 :: rest) s0 hmono s hs)
    have hnone := findBracket_none_of_lt (s0 :: s1 :: rest) (max 0 (min 1 t)) hall
    simp only [interpolateGradient]
    rw [hnone, Option.getD_none]
  · intro hgt
    have hall : ∀ s ∈ (s0 :: s1 :: rest).tail, s.atv < max 0 (min 1 t) := fun s hs =>
      lt_of_le_of_lt
        (chain_le_getLast (s1 :: rest) s0 hmono s (List.mem_of_mem_tail hs)) hgt
    have hnone := findBracket_none_of_gt (s0 :: s1 :: rest) (max 0 (min 1 t)) hall
    simp only [interpolateGradient]
    rw [hnone, Option.getD_none]

/-- Witness for C9: for the ordered stops at `0`, `1/2`, `1` with grey
levels `0`, `100`, `200`, the query `3/4` is bracketed by the last two
stops and interpolates to grey level `150`; and for the two stops at `0`
and `1/2` with grey levels `0` and `100`, the same query `3/4` lies above
the last stop and extrapolates with the first/last pair to grey level
`150`, beyond the endpoint color `100`. -/
theorem interpolateGradient_bracket_witness :
    (∃ lower upper : GradStop ℚ,
      (lower, upper) ∈
        ([(⟨0, ⟨0, 0, 0⟩⟩ : GradStop ℚ), ⟨1 / 2, ⟨100, 100, 100⟩⟩,
          ⟨1, ⟨200, 200, 200⟩⟩]).zip [⟨1 / 2, ⟨100, 100, 100⟩⟩, ⟨1, ⟨200, 200, 200⟩⟩] ∧
      lower.atv ≤ max 0 (min 1 (3 / 4 : ℚ)) ∧ max 0 (min 1 (3 / 4 : ℚ)) ≤ upper.atv ∧
      interpolateGradient [(⟨0, ⟨0, 0, 0⟩⟩ : GradStop ℚ), ⟨1 / 2, ⟨100, 100, 100⟩⟩,
          ⟨1, ⟨200, 200, 200⟩⟩] (3 / 4) =
        some (lerpRGB lower.color upper.color
          (if 0 < upper.atv - lower.atv
            then (max 0 (min 1 (3 / 4 : ℚ)) - lower.atv) / (upper.atv - lower.atv)
            else 0))) ∧
    interpolateGradient [(⟨0, ⟨0, 0, 0⟩⟩ : GradStop ℚ), ⟨1 / 2, ⟨100, 100, 100⟩⟩,
        ⟨1, ⟨200, 200, 200⟩⟩] (3 / 4) = some ⟨150, 150, 150⟩ ∧
    (interpolateGradient [(⟨0, ⟨0, 0, 0⟩⟩ : GradStop ℚ), ⟨1 / 2, ⟨100, 100, 100⟩⟩] (3 / 4) =
      some (lerpRGB (⟨0, ⟨0, 0, 0⟩⟩ : GradStop ℚ).color
        (([(⟨0, ⟨0, 0, 0⟩⟩ : GradStop ℚ), ⟨1 / 2, ⟨100, 100, 100⟩⟩].getLast
          (List.cons_ne_nil (⟨0, ⟨0, 0, 0⟩⟩ : GradStop ℚ) [⟨1 / 2, ⟨100, 100, 100⟩⟩])).color)
        (if 0 < ([(⟨0, ⟨0, 0, 0⟩⟩ : GradStop ℚ), ⟨1 / 2, ⟨100, 100, 100⟩⟩].getLast
              (List.cons_ne_nil (⟨0, ⟨0, 0, 0⟩⟩ : GradStop ℚ)
                [⟨1 / 2, ⟨100, 100, 100⟩⟩])).atv - (⟨0, ⟨0, 0, 0⟩⟩ : GradStop ℚ).atv
          then (max 0 (min 1 (3 / 4 : ℚ)) - (⟨0, ⟨0, 0, 0⟩⟩ : GradStop ℚ).atv) /
            (([(⟨0, ⟨0, 0, 0⟩⟩ : GradStop ℚ), ⟨1 / 2, ⟨100, 100, 100⟩⟩].getLast
              (List.cons_ne_nil (⟨0, ⟨0, 0, 0⟩⟩ : GradStop ℚ)
                [⟨1 / 2, ⟨100, 100, 100⟩⟩])).atv - (⟨0, ⟨0, 0, 0⟩⟩ : GradStop ℚ).atv)
          else 0))) ∧
    interpolateGradient [(⟨0, ⟨0, 0, 0⟩⟩ : GradStop ℚ), ⟨1 / 2, ⟨100, 100, 100⟩⟩] (3 / 4) =
      some ⟨150, 150, 150⟩ :=
  ⟨((interpolateGradient_bracket (⟨0, ⟨0, 0, 0⟩⟩ : GradStop ℚ) ⟨1 / 2, ⟨100, 100, 100⟩⟩
      [⟨1, ⟨200, 200, 200⟩⟩] (3 / 4)
      (by norm_num [List.chain'_cons, List.chain'_singleton])).1
      (by with_unfolding_all decide) (by with_unfolding_all decide)),
    by with_unfolding_all decide,
    ((interpolateGradient_bracket (⟨0, ⟨0, 0, 0⟩⟩ : GradStop ℚ) ⟨1 / 2, ⟨100, 100, 100⟩⟩
      [] (3 / 4)
      (by norm_num [List.chain'_cons, List.chain'_singleton])).2.2
      (by with_unfolding_all decide)),
    by with_unfolding_all decide⟩

/-- Counterexample for C9 as stated: for stops at `1/2` (grey 64) and `1`
(grey 128), the query `1/4` lies outside the range covered by the stops,
yet the utility returns grey 32 — a linear extrapolation below the first
stop — instead of the nearest endpoint stop's color, grey 64. -/
theorem gradient_extrapolation_cex :
    interpolateGradient [(⟨1 / 2, ⟨64, 64, 64⟩⟩ : GradStop ℚ), ⟨1, ⟨128, 128, 128⟩⟩]
        (1 / 4) = some ⟨32, 32, 32⟩ ∧
    (some (⟨32, 32, 32⟩ : RGB) ≠ some (⟨64, 64, 64⟩ : RGB)) ∧
    (some (⟨32, 32, 32⟩ : RGB) ≠ some (⟨128, 128, 128⟩ : RGB)) := by
  refine ⟨?_, by decide, by decide⟩
  with_unfolding_all decide

end CanvasGauge
